import Mathlib

/-!
Verification of the statistics / comparison engine (`src/utils/performance-analyzer.ts`)
and the scenario step interpreter (`src/utils/scenario-runner.ts`) of the
PerformanceComparationFramework repository.

Modelling conventions:
* JavaScript numbers are modelled by `ℚ`.  The source only performs field
  arithmetic, `Math.round`, `Math.floor`, `Math.ceil`, `Math.min`, `Math.max`,
  `Math.abs`, `Math.pow(_, 2)` and `Math.sqrt`; all but `Math.sqrt` are exact
  rational operations (floating point rounding noise is idealised away, e.g.
  the literal `0.05` is read as `1/20`).  The one square root computed by the
  source (`isSignificantDifference`) is eliminated by an equivalent squared
  comparison, see the comment on that definition.
* A JS value that may be `undefined` is modelled by `Option`.
* A thrown `Error` is modelled by `Except String` carrying the message.
-/

namespace PerfComp

/-- Mirrors interface `CoreWebVitals` (`src/types/index.ts`): `fid` and `inp`
are optional fields. -/
structure CoreWebVitals where
  lcp : ℚ
  fid : Option ℚ
  inp : Option ℚ
  cls : ℚ
deriving DecidableEq, Repr

/-- Mirrors interface `ResourceTiming`; the `type` union of string literals is
modelled as a plain string. -/
structure ResourceTiming where
  name : String
  type : String
  duration : ℚ
  size : ℚ
  transferSize : ℚ
deriving DecidableEq, Repr

/-- Mirrors interface `PerformanceMetrics`. -/
structure PerformanceMetrics where
  ttfb : ℚ
  fcp : ℚ
  tti : ℚ
  dnsTime : ℚ
  sslTime : ℚ
  resourceLoadTimes : List ResourceTiming
  totalPageLoadTime : ℚ
  domContentLoaded : ℚ
  loadComplete : ℚ
deriving DecidableEq, Repr

/-- Mirrors interface `ApplicationMetrics`; the string-keyed numeric maps are
modelled as association lists. -/
structure ApplicationMetrics where
  loginTime : Option ℚ
  dashboardLoadTime : Option ℚ
  navigationTimes : List (String × ℚ)
  apiResponseTimes : List (String × ℚ)
  formProcessingTimes : List (String × ℚ)
deriving DecidableEq, Repr

/-- Mirrors interface `MetricsResult`; the `environment` union
`"pre" | "pro"` is modelled as a plain string. -/
structure MetricsResult where
  timestamp : String
  url : String
  environment : String
  application : String
  scenario : String
  iteration : ℕ
  coreWebVitals : CoreWebVitals
  performanceMetrics : PerformanceMetrics
  applicationMetrics : ApplicationMetrics
  userAgent : String
deriving DecidableEq, Repr

/-- Mirrors interface `StatisticalSummary`.  The `standardDeviation` field of
the source (`Math.sqrt(variance)`, rounded) is omitted: it is not exactly
representable in `ℚ` and no verified function or claim reads it. -/
structure StatisticalSummary where
  mean : ℚ
  median : ℚ
  p95 : ℚ
  p99 : ℚ
  min : ℚ
  max : ℚ
  variance : ℚ
deriving DecidableEq, Repr

/-- The `'app1' | 'app2' | 'tie'` union returned by `determineWinner`. -/
inductive Winner where
  | app1
  | app2
  | tie
deriving DecidableEq, Repr

/-- Mirrors interface `ComparisonResult`. -/
structure ComparisonResult where
  scenario : String
  metric : String
  app1 : StatisticalSummary
  app2 : StatisticalSummary
  improvement : ℚ
  significantDifference : Bool
  winner : Winner
deriving DecidableEq, Repr

/-- JS `Math.round(q * 100) / 100` (round to two decimals).  JS `Math.round`
rounds half toward positive infinity: `Math.round(x) = ⌊x + 0.5⌋`. -/
def round2 (q : ℚ) : ℚ := (⌊q * 100 + 1/2⌋ : ℚ) / 100

/-- JS `Math.min(...values)` over a non-empty spread (the empty case, which JS
maps to `Infinity`, is never reached by the source and returns `0` here). -/
def listMin : List ℚ → ℚ
  | [] => 0
  | x :: xs => xs.foldl min x

/-- JS `Math.max(...values)` over a non-empty spread (empty case as in
`listMin`). -/
def listMax : List ℚ → ℚ
  | [] => 0
  | x :: xs => xs.foldl max x

/-- `PerformanceAnalyzer.calculatePercentile` (performance-analyzer.ts,
lines 46-56).  `weight` is JS `index % 1`, which for the only branch that
uses it (`0 ≤ lower`, hence `0 ≤ index`) equals `index - ⌊index⌋`. -/
def calculatePercentile (sortedValues : List ℚ) (percentile : ℚ) : ℚ :=
  let index : ℚ := percentile / 100 * ((sortedValues.length : ℚ) - 1)
  let lower : ℤ := ⌊index⌋
  let upper : ℤ := ⌈index⌉
  let weight : ℚ := index - ⌊index⌋
  if (sortedValues.length : ℤ) ≤ upper then
    sortedValues.getD (sortedValues.length - 1) 0
  else if lower < 0 then
    sortedValues.getD 0 0
  else
    sortedValues.getD lower.toNat 0 * (1 - weight) +
      sortedValues.getD upper.toNat 0 * weight

/-- The statistics computed by `PerformanceAnalyzer.calculateStatistics`
(lines 13-41) for a non-empty input.  `[...values].sort((a, b) => a - b)` is
an ascending numeric sort; for numbers a sorted permutation of the input is
unique, so it is rendered by `List.insertionSort (· ≤ ·)`.  The variance is
the population variance (divide by `n`). -/
def calculateStatisticsCore (values : List ℚ) : StatisticalSummary :=
  let sortedValues := List.insertionSort (· ≤ ·) values
  let n : ℚ := values.length
  let mean : ℚ := values.sum / n
  let variance : ℚ := (values.map (fun val => (val - mean) ^ 2)).sum / n
  { mean := round2 mean
    median := round2 (calculatePercentile sortedValues 50)
    p95 := round2 (calculatePercentile sortedValues 95)
    p99 := round2 (calculatePercentile sortedValues 99)
    min := round2 (listMin values)
    max := round2 (listMax values)
    variance := round2 variance }

/-- `PerformanceAnalyzer.calculateStatistics` including its guard: the empty
array throws `Error('Cannot calculate statistics for empty array')`. -/
def calculateStatistics (values : List ℚ) : Except String StatisticalSummary :=
  if values.length = 0 then
    Except.error "Cannot calculate statistics for empty array"
  else
    Except.ok (calculateStatisticsCore values)

/-- `PerformanceAnalyzer.extractMetricValues` (lines 102-117): per-metric
projection (`undefined` optional fields default to `0` via `|| 0`, unknown
metrics to `0`) followed by `.filter(value => value > 0)`. -/
def extractMetricValues (results : List MetricsResult) (metric : String) : List ℚ :=
  (results.map (fun result =>
    if metric = "lcp" then result.coreWebVitals.lcp
    else if metric = "fid" then result.coreWebVitals.fid.getD 0
    else if metric = "inp" then result.coreWebVitals.inp.getD 0
    else if metric = "cls" then result.coreWebVitals.cls
    else if metric = "ttfb" then result.performanceMetrics.ttfb
    else if metric = "fcp" then result.performanceMetrics.fcp
    else if metric = "tti" then result.performanceMetrics.tti
    else if metric = "totalPageLoadTime" then result.performanceMetrics.totalPageLoadTime
    else if metric = "domContentLoaded" then result.performanceMetrics.domContentLoaded
    else 0)).filter (fun value => 0 < value)

/-- `PerformanceAnalyzer.calculateImprovement` (lines 122-125):
`Math.round(((baseline - comparison) / baseline) * 100 * 100) / 100`, with a
`baseline === 0` guard returning `0`. -/
def calculateImprovement (baseline comparison : ℚ) : ℚ :=
  if baseline = 0 then 0
  else round2 ((baseline - comparison) / baseline * 100)

/-- `PerformanceAnalyzer.isSignificantDifference` (lines 130-146).  The source
computes `standardError = Math.sqrt(pooledVariance * (1/n1 + 1/n2))`,
`tScore = Math.abs(mean1 - mean2) / standardError` and returns
`tScore > 2.0`.  The radicand is non-negative (the rounded variances are
non-negative, see `variance_nonneg`), and for a non-negative radicand `b` the
JS comparison `|d| / sqrt(b) > 2` holds exactly when `d^2 > 4 * b`, including
the degenerate case `b = 0` where JS produces `Infinity > 2` (true for
`d ≠ 0`) or `NaN > 2` (false for `d = 0`).  The squared form keeps the
definition inside `ℚ`; `isSignificantDifference_spec` proves it equivalent to
the square-root formulation over `ℝ`. -/
def isSignificantDifference (values1 values2 : List ℚ) : Bool :=
  if values1.length < 2 ∨ values2.length < 2 then false
  else
    let stats1 := calculateStatisticsCore values1
    let stats2 := calculateStatisticsCore values2
    let n1 : ℚ := values1.length
    let n2 : ℚ := values2.length
    let pooledVariance : ℚ :=
      ((n1 - 1) * stats1.variance + (n2 - 1) * stats2.variance) / (n1 + n2 - 2)
    decide ((stats1.mean - stats2.mean) ^ 2 > 2 ^ 2 * (pooledVariance * (1 / n1 + 1 / n2)))

/-- The square-root formulation of the significance test, as the spec and
the source write it: `tScore > 2.0` multiplied through by the (possibly
zero) standard error, over `ℝ`.  `isSignificantDifference_spec` proves the
executable `ℚ` definition above equivalent to this predicate. -/
def tTestExceeds (values1 values2 : List ℚ) : Prop :=
  2 * Real.sqrt
      (((((values1.length : ℝ) - 1) * ((calculateStatisticsCore values1).variance : ℝ) +
          ((values2.length : ℝ) - 1) * ((calculateStatisticsCore values2).variance : ℝ)) /
         ((values1.length : ℝ) + (values2.length : ℝ) - 2)) *
        (1 / (values1.length : ℝ) + 1 / (values2.length : ℝ))) <
    |((calculateStatisticsCore values1).mean : ℝ) - ((calculateStatisticsCore values2).mean : ℝ)|

/-- The fixed metric list iterated by `compareApplications` (lines 67-70). -/
def comparisonMetrics : List String :=
  ["lcp", "fid", "inp", "cls", "ttfb", "fcp", "tti",
   "totalPageLoadTime", "domContentLoaded"]

/-- The `lowerIsBetter` list of `determineWinner` (line 159); it coincides
with `comparisonMetrics`. -/
def lowerIsBetterMetrics : List String :=
  ["lcp", "fid", "inp", "cls", "ttfb", "fcp", "tti",
   "totalPageLoadTime", "domContentLoaded"]

/-- `PerformanceAnalyzer.determineWinner` (lines 151-166).  The JS guard is
`difference / average < 0.05`; when `average = 0` the JS quotient is `NaN`
(or `Infinity`) and the comparison is false, hence the explicit
`average ≠ 0` conjunct (for `average ≠ 0` rational division agrees with JS). -/
def determineWinner (value1 value2 : ℚ) (metric : String) : Winner :=
  let threshold : ℚ := 1/20
  let difference : ℚ := |value1 - value2|
  let average : ℚ := (value1 + value2) / 2
  if average ≠ 0 ∧ difference / average < threshold then Winner.tie
  else if lowerIsBetterMetrics.contains metric then
    (if value1 < value2 then Winner.app1 else Winner.app2)
  else
    (if value1 > value2 then Winner.app1 else Winner.app2)

/-- `PerformanceAnalyzer.compareApplications` (lines 61-97).  The
`for`-loop with `continue` over the fixed metric list is a `filterMap`; both
inner `calculateStatistics` calls are written via `calculateStatisticsCore`,
which is legitimate because both value lists have been checked non-empty
(`calculateStatistics_ok`). -/
def compareApplications (app1Results app2Results : List MetricsResult)
    (scenario : String) : List ComparisonResult :=
  comparisonMetrics.filterMap (fun metric =>
    let app1Values := extractMetricValues app1Results metric
    let app2Values := extractMetricValues app2Results metric
    if app1Values.length = 0 ∨ app2Values.length = 0 then none
    else
      let app1Stats := calculateStatisticsCore app1Values
      let app2Stats := calculateStatisticsCore app2Values
      some
        { scenario := scenario
          metric := metric
          app1 := app1Stats
          app2 := app2Stats
          improvement := calculateImprovement app1Stats.mean app2Stats.mean
          significantDifference := isSignificantDifference app1Values app2Values
          winner := determineWinner app1Stats.mean app2Stats.mean metric })

/-- `PerformanceAnalyzer.detectRegressions` (lines 244-253); the TS default
for `regressionThreshold` is `10`. -/
def detectRegressions (comparisons : List ComparisonResult)
    (regressionThreshold : ℚ) : List ComparisonResult :=
  comparisons.filter (fun comparison =>
    decide (comparison.winner = Winner.app1 ∧
      regressionThreshold < |comparison.improvement| ∧
      comparison.significantDifference = true))

/-- The per-sample `score` accumulated by the loop body of
`PerformanceAnalyzer.calculatePerformanceScore` (lines 270-290), with the
fixed weights `{lcp: 0.3, fid: 0.2, cls: 0.2, ttfb: 0.15, tti: 0.15}`. -/
def scoreForResult (result : MetricsResult) : ℚ :=
  3/10 * max 0 (100 - result.coreWebVitals.lcp / 25) +
  1/5 * max 0 (100 - result.coreWebVitals.fid.getD 0 / 1) +
  1/5 * max 0 (100 - result.coreWebVitals.cls * 1000) +
  3/20 * max 0 (100 - result.performanceMetrics.ttfb / 6) +
  3/20 * max 0 (100 - result.performanceMetrics.tti / 35)

/-- The `totalScore` accumulator of `calculatePerformanceScore`.  (The
source also accumulates a `totalWeight` variable that is never read.) -/
def performanceScoreTotal (results : List MetricsResult) : ℚ :=
  results.foldl (fun totalScore result => totalScore + scoreForResult result) 0

/-- `PerformanceAnalyzer.calculatePerformanceScore` (lines 258-293):
`Math.round((totalScore / results.length) * 100) / 100`.  The codomain of the
JS function is the JS number type; `none` models the non-finite value (`NaN`)
produced when the division has divisor `0`, i.e. exactly when `results` is
empty — there is no emptiness guard in the source. -/
def calculatePerformanceScore (results : List MetricsResult) : Option ℚ :=
  if results.length = 0 then none
  else some (round2 (performanceScoreTotal results / results.length))

/-! ## Scenario runner (`src/utils/scenario-runner.ts`)

The step interpreter drives an external browser session; its pure content —
step validation, test-data lookup and placeholder substitution — is embedded
below.  The session effects of a successfully validated step are recorded as
a trace of abstract session commands.  The two independent `Math.random()`
draws of `processValue` are modelled by two natural-number oracles `r1`,
`r2`; JS draws an index uniformly in `0 .. users.length - 1`, rendered here
as `r % users.length`. -/

/-- One record of the `testData.users` credential pool. -/
structure UserRecord where
  username : String
  password : String
deriving DecidableEq, Repr

/-- The JSON values reachable by `getTestDataValue` traversal. -/
inductive JsonVal where
  | str (s : String)
  | num (q : ℚ)
  | bool (b : Bool)
  | null
  | arr (elems : List JsonVal)
  | obj (fields : List (String × JsonVal))

/-- The test-data context of a `ScenarioRunner` instance: the two projections
of the loaded JSON that the substitution code reads.  `users` models
`this.testData.testData?.users` (absent key gives `none`); `data` models
`this.testData.testData || {}` as seen by `getTestDataValue`. -/
structure TestDataCtx where
  users : Option (List UserRecord)
  data : JsonVal

/-- JS property access `value?.[k]`: key lookup on an object, `undefined` on
everything else and on an already-`undefined` receiver. -/
def jsonLookup : Option JsonVal → String → Option JsonVal
  | some (JsonVal.obj fields), k => fields.lookup k
  | _, _ => none

/-- `ScenarioRunner.getTestDataValue` (scenario-runner.ts, lines 260-272):
split the key on `'.'`, traverse, and return the value if it is a string,
otherwise the empty string. -/
def getTestDataValue (data : JsonVal) (key : String) : String :=
  let keys := key.splitOn "."
  match keys.foldl jsonLookup (some data) with
  | some (JsonVal.str s) => s
  | _ => ""

/-- The fallback pool used by `getRandomUser` when
`this.testData.testData?.users` is absent (`|| [...]`; note that a present
but *empty* array is truthy in JS and is not replaced). -/
def defaultUsers : List UserRecord :=
  [{ username := "testuser@example.com", password := "testpass" }]

/-- `ScenarioRunner.getRandomUser` (lines 250-255).  `r % users.length`
models `Math.floor(Math.random() * users.length)`, which for a non-empty
pool is a uniform index into it.  (For a configured empty pool the JS code
faults on `undefined`; that case is unreachable in the claims and returns
the default record here.) -/
def getRandomUser (td : TestDataCtx) (r : ℕ) : UserRecord :=
  let users := td.users.getD defaultUsers
  users.getD (r % users.length) { username := "testuser@example.com", password := "testpass" }

/-- JS `\w` without the unicode flag: `[A-Za-z0-9_]`.  Note that `'.'` is
*not* a word character. -/
def isWordChar (c : Char) : Bool := c.isAlphanum || c = '_'

/-- Substring test (JS `String.prototype.includes`). -/
def containsSeq (pat : List Char) : List Char → Bool
  | [] => pat.isEmpty
  | c :: cs => (pat == (c :: cs).take pat.length) || containsSeq pat cs

/-- First-occurrence replacement: JS `String.prototype.replace` with a plain
string pattern.  (The `$`-escape sequences JS interprets inside the
replacement string are not modelled; the replacement texts used by the
source are credential fields, assumed free of `$`.) -/
def replaceFirstSeq (pat rep : List Char) : List Char → List Char
  | [] => []
  | c :: cs =>
    if pat == (c :: cs).take pat.length then rep ++ (c :: cs).drop pat.length
    else c :: replaceFirstSeq pat rep cs

/-- The global regex replacement `processedValue.replace(/\$\{(\w+)\}/g,
(match, key) => this.getTestDataValue(key) || match)` (line 240), as a
left-to-right scan.  A placeholder is `'$'`, `'\x7b'`, one or more word
characters, `'\x7d'`; on a match the replacement is the looked-up value
unless that value is the empty string (falsy in JS), in which case the
matched text is kept; the replacement text is not rescanned.  On a failed
match the scan resumes one character further, exactly like the regex
engine (greedy `\w+` cannot help a failed match by backtracking, since the
character after a shorter word run is a word character, never `'\x7d'`). -/
def replaceTokens (lookup : String → String) (cs : List Char) : List Char :=
  match cs with
  | [] => []
  | '$' :: '\x7b' :: rest =>
    (match hw : rest.takeWhile isWordChar, hd : rest.dropWhile isWordChar with
     | w :: ws, '\x7d' :: tail =>
        let key : String := ⟨w :: ws⟩
        let looked := lookup key
        let repl : List Char :=
          if looked = "" then '$' :: '\x7b' :: ((w :: ws) ++ ['\x7d']) else looked.data
        repl ++ replaceTokens lookup tail
     | _, _ => '$' :: replaceTokens lookup ('\x7b' :: rest))
  | c :: cs' => c :: replaceTokens lookup cs'
termination_by cs.length
decreasing_by
  · have h1 : (rest.dropWhile isWordChar).length ≤ rest.length :=
      (List.dropWhile_sublist isWordChar).length_le
    rw [hd] at h1
    simp only [List.length_cons] at h1 ⊢
    omega
  · simp only [List.length_cons]
    omega
  · simp only [List.length_cons]
    omega

/-- `ScenarioRunner.processValue` (lines 220-245): early return when the
value has no `"$\x7b"`, then first-occurrence replacement of the
`"$\x7busername\x7d"` and `"$\x7bpassword\x7d"` tokens (each drawing a user
independently), then the global word-key regex replacement. -/
def processValue (td : TestDataCtx) (r1 r2 : ℕ) (value : String) : String :=
  if ¬ containsSeq "$\x7b".data value.data then value
  else
    let afterUser : List Char :=
      if containsSeq "$\x7busername\x7d".data value.data then
        replaceFirstSeq "$\x7busername\x7d".data (getRandomUser td r1).username.data value.data
      else value.data
    let afterPassword : List Char :=
      if containsSeq "$\x7bpassword\x7d".data afterUser then
        replaceFirstSeq "$\x7bpassword\x7d".data (getRandomUser td r2).password.data afterUser
      else afterUser
    ⟨replaceTokens (getTestDataValue td.data) afterPassword⟩

/-- Mirrors interface `TestStep`: only `action` is required. -/
structure TestStep where
  action : String
  selector : Option String := none
  value : Option String := none
  url : Option String := none
  timeout : Option ℕ := none
  customFunction : Option String := none
deriving DecidableEq, Repr

/-- Abstract session commands issued by a validated step (the Playwright
calls of the source, in order). -/
inductive SessionCmd where
  | waitVisible (selector : String) (timeoutMs : ℕ)
  | click (selector : String)
  | waitTimeout (ms : ℕ)
  | clear (selector : String)
  | fill (selector : String) (value : String)
deriving DecidableEq, Repr

/-- JS falsiness of an optional string (`!step.selector`): `undefined` and
the empty string are falsy. -/
def strFalsy : Option String → Bool
  | none => true
  | some s => s = ""

/-- `ScenarioRunner.executeClickStep` (lines 142-153): a falsy selector
throws `Error('Click step requires selector')`; otherwise the step waits for
visibility (with the caller-supplied timeout, `step.timeout || 10000` at the
dispatch site), clicks, and settles for a fixed 1000 ms. -/
def executeClickStep (step : TestStep) (timeout : ℕ) : Except String (List SessionCmd) :=
  if strFalsy step.selector then Except.error "Click step requires selector"
  else
    let sel := step.selector.getD ""
    Except.ok [SessionCmd.waitVisible sel timeout, SessionCmd.click sel,
               SessionCmd.waitTimeout 1000]

/-- `ScenarioRunner.executeFillStep` (lines 158-171): a falsy selector or a
strictly-`undefined` value (the check is `step.value === undefined`, so the
empty string is a valid value) throws
`Error('Fill step requires selector and value')`; otherwise the step waits
for visibility (fixed 5000 ms), clears, and fills with the substituted
value. -/
def executeFillStep (td : TestDataCtx) (r1 r2 : ℕ) (step : TestStep) :
    Except String (List SessionCmd) :=
  if strFalsy step.selector || step.value == none then
    Except.error "Fill step requires selector and value"
  else
    let sel := step.selector.getD ""
    let value := processValue td r1 r2 (step.value.getD "")
    Except.ok [SessionCmd.waitVisible sel 5000, SessionCmd.clear sel,
               SessionCmd.fill sel value]

/-! ## Concrete fixtures used by witnesses and counterexamples -/

/-- A `MetricsResult` with the given nine tracked metric values and harmless
identifying fields. -/
def mkSample (lcp fid inp cls ttfb fcp tti tplt dcl : ℚ) : MetricsResult :=
  { timestamp := "2024-01-01T00:00:00.000Z", url := "https://app.example.com",
    environment := "pre", application := "app", scenario := "login", iteration := 1,
    coreWebVitals := { lcp := lcp, fid := some fid, inp := some inp, cls := cls },
    performanceMetrics :=
      { ttfb := ttfb, fcp := fcp, tti := tti, dnsTime := 1, sslTime := 1,
        resourceLoadTimes := [], totalPageLoadTime := tplt,
        domContentLoaded := dcl, loadComplete := 1 },
    applicationMetrics :=
      { loginTime := none, dashboardLoadTime := none, navigationTimes := [],
        apiResponseTimes := [], formProcessingTimes := [] },
    userAgent := "test" }

/-- A sample with every tracked metric equal to `100`. -/
def sampleA : MetricsResult := mkSample 100 100 100 100 100 100 100 100 100

/-- A sample whose `cls` is the positive value `0.001`; its per-metric mean
rounds to `0` at two decimals. -/
def sampleTiny : MetricsResult := mkSample 100 100 100 (1/1000) 100 100 100 100 100

/-- A test-data context with a two-record user pool and a nested string under
the dotted path `formData.basic.title`. -/
def ctxA : TestDataCtx :=
  { users := some [{ username := "alice@example.com", password := "secret1" },
                   { username := "bob@example.com", password := "secret2" }],
    data := JsonVal.obj
      [("formData", JsonVal.obj [("basic", JsonVal.obj [("title", JsonVal.str "Hello")])]),
       ("searchTerm", JsonVal.str "laptops")] }

/-- Inert default records used only as `List.getD` fallbacks in witnesses. -/
def trivialSummary : StatisticalSummary :=
  { mean := 0, median := 0, p95 := 0, p99 := 0, min := 0, max := 0, variance := 0 }

def trivialComparison : ComparisonResult :=
  { scenario := "", metric := "", app1 := trivialSummary, app2 := trivialSummary,
    improvement := 0, significantDifference := false, winner := Winner.tie }

/-! ## Helper lemmas -/

theorem round2_mono {a b : ℚ} (h : a ≤ b) : round2 a ≤ round2 b := by
  unfold round2
  have h1 : (⌊a * 100 + 1/2⌋ : ℤ) ≤ ⌊b * 100 + 1/2⌋ :=
    Int.floor_le_floor (by linarith)
  have h2 : ((⌊a * 100 + 1/2⌋ : ℤ) : ℚ) ≤ ((⌊b * 100 + 1/2⌋ : ℤ) : ℚ) := by
    exact_mod_cast h1
  exact (div_le_div_iff_of_pos_right (by norm_num)).mpr h2

theorem round2_nonneg {a : ℚ} (h : 0 ≤ a) : 0 ≤ round2 a := by
  unfold round2
  have h1 : (0 : ℤ) ≤ ⌊a * 100 + 1/2⌋ := Int.le_floor.mpr (by push_cast; linarith)
  have h2 : (0 : ℚ) ≤ ((⌊a * 100 + 1/2⌋ : ℤ) : ℚ) := by exact_mod_cast h1
  positivity

theorem round2_zero : round2 0 = 0 := by
  unfold round2
  norm_num

/-- The rounded population variance computed by `calculateStatisticsCore` is
non-negative. -/
theorem variance_nonneg (values : List ℚ) : 0 ≤ (calculateStatisticsCore values).variance := by
  unfold calculateStatisticsCore
  apply round2_nonneg
  apply div_nonneg
  · exact List.sum_nonneg (by
      intro x hx
      obtain ⟨v, _, rfl⟩ := List.mem_map.mp hx
      positivity)
  · positivity

/-- Both metric lists of the analyzer are literally the same nine strings. -/
theorem comparisonMetrics_contains {metric : String} (h : metric ∈ comparisonMetrics) :
    lowerIsBetterMetrics.contains metric = true := by
  have : metric ∈ lowerIsBetterMetrics := h
  simpa using this

/-! ## C9 — calculateStatistics on empty and non-empty input -/

/-- C9: `calculateStatistics` applied to the empty array fails with the
empty-input error rather than returning a summary, and on every non-empty
array it returns a summary without error. -/
theorem calculateStatistics_empty_and_nonempty :
    calculateStatistics [] = Except.error "Cannot calculate statistics for empty array" ∧
    ∀ values : List ℚ, values ≠ [] →
      calculateStatistics values = Except.ok (calculateStatisticsCore values) := by
  refine ⟨rfl, ?_⟩
  intro v hv
  unfold calculateStatistics
  simp [List.length_eq_zero, hv]

/-- Witness for C9 at the concrete non-empty input `[5]`. -/
theorem calculateStatistics_nonempty_witness :
    calculateStatistics [5] = Except.ok (calculateStatisticsCore [5]) :=
  calculateStatistics_empty_and_nonempty.2 [5] (by simp)

/-! ## C10 — calculatePerformanceScore divides zero by zero on empty input -/

/-- C10: on the empty result list `calculatePerformanceScore` raises no error
(unlike `calculateStatistics`): its accumulated total is `0`, its divisor
`results.length` is `0`, and the caller receives the non-finite JS number
(`NaN`, modelled by `none`) instead of a defined score or a failure; on any
non-empty list it yields a finite score. -/
theorem calculatePerformanceScore_empty_nan :
    performanceScoreTotal [] = 0 ∧
    ([] : List MetricsResult).length = 0 ∧
    calculatePerformanceScore [] = none ∧
    calculateStatistics [] = Except.error "Cannot calculate statistics for empty array" ∧
    ∀ (r : MetricsResult) (rs : List MetricsResult),
      (calculatePerformanceScore (r :: rs)).isSome = true := by
  refine ⟨rfl, rfl, rfl, rfl, ?_⟩
  intro r rs
  simp [calculatePerformanceScore]

/-! ## C5 — detectRegressions membership characterization -/

/-- C5: `detectRegressions` returns exactly the comparisons whose winner is
the baseline (`app1`), whose absolute improvement magnitude exceeds the
threshold, and whose difference is statistically significant; in particular a
comparison with `significantDifference = false` is never returned, whatever
its magnitude. -/
theorem detectRegressions_mem_iff :
    ∀ (comparisons : List ComparisonResult) (threshold : ℚ) (c : ComparisonResult),
      c ∈ detectRegressions comparisons threshold ↔
        c ∈ comparisons ∧ c.winner = Winner.app1 ∧
          threshold < |c.improvement| ∧ c.significantDifference = true := by
  intro comps t c
  simp [detectRegressions, List.mem_filter, and_assoc]

/-! ## C8 — click / fill step validation -/

/-- C8: a click step without a selector fails with the configuration error;
a fill step without a selector or with an undefined value fails with the
configuration error; a fill step with a present non-empty selector and the
*empty-string* value passes validation and issues its session commands. -/
theorem step_validation_click_fill :
    ∀ (step : TestStep) (timeout : ℕ) (td : TestDataCtx) (r1 r2 : ℕ),
      (step.selector = none →
        executeClickStep step timeout = Except.error "Click step requires selector") ∧
      (step.selector = none ∨ step.value = none →
        executeFillStep td r1 r2 step = Except.error "Fill step requires selector and value") ∧
      (∀ sel : String, step.selector = some sel → sel ≠ "" → step.value = some "" →
        executeFillStep td r1 r2 step =
          Except.ok [SessionCmd.waitVisible sel 5000, SessionCmd.clear sel,
                     SessionCmd.fill sel (processValue td r1 r2 "")]) := by
  intro step timeout td r1 r2
  refine ⟨?_, ?_, ?_⟩
  · intro h
    simp [executeClickStep, h, strFalsy]
  · intro h
    rcases h with h | h <;> simp [executeFillStep, h, strFalsy]
  · intro sel hsel hne hval
    simp [executeFillStep, hsel, hval, strFalsy, hne]

/-- Witness for C8 at concrete steps. -/
theorem step_validation_witness :
    executeClickStep { action := "click" } 10000 = Except.error "Click step requires selector" ∧
    executeFillStep ctxA 0 0 { action := "fill", selector := some "#x" } =
      Except.error "Fill step requires selector and value" ∧
    executeFillStep ctxA 0 0 { action := "fill", selector := some "#x", value := some "" } =
      Except.ok [SessionCmd.waitVisible "#x" 5000, SessionCmd.clear "#x",
                 SessionCmd.fill "#x" (processValue ctxA 0 0 "")] :=
  ⟨(step_validation_click_fill { action := "click" } 10000 ctxA 0 0).1 rfl,
   (step_validation_click_fill { action := "fill", selector := some "#x" } 10000 ctxA 0 0).2.1
     (Or.inr rfl),
   (step_validation_click_fill { action := "fill", selector := some "#x", value := some "" }
     10000 ctxA 0 0).2.2 "#x" rfl (by decide) rfl⟩

/-! ## C2 — determineWinner tie band and lower-is-better winner -/

/-- C2: for means with a non-vanishing average (the domain on which the
relative-difference formula is defined), the winner is `tie` exactly when
`|m1 - m2| / ((m1 + m2) / 2) < 0.05`; otherwise, for each of the nine
tracked lower-is-better metrics, the side with the strictly smaller mean
wins; in particular `100` vs `104` ties and `100` vs `110` goes to the
baseline. -/
theorem determineWinner_tie_iff_lower_wins :
    ∀ (m1 m2 : ℚ) (metric : String), m1 + m2 ≠ 0 → metric ∈ lowerIsBetterMetrics →
      ((determineWinner m1 m2 metric = Winner.tie ↔ |m1 - m2| / ((m1 + m2) / 2) < 1/20) ∧
       (determineWinner m1 m2 metric ≠ Winner.tie →
         ((determineWinner m1 m2 metric = Winner.app1 ↔ m1 < m2) ∧
          (determineWinner m1 m2 metric = Winner.app2 ↔ m2 < m1))) ∧
       (determineWinner 100 104 metric = Winner.tie ∧
        determineWinner 100 110 metric = Winner.app1)) := by
  intro m1 m2 metric havg hmem
  have havg2 : (m1 + m2) / 2 ≠ 0 := div_ne_zero havg two_ne_zero
  have key : determineWinner m1 m2 metric =
      if |m1 - m2| / ((m1 + m2) / 2) < 1/20 then Winner.tie
      else if m1 < m2 then Winner.app1 else Winner.app2 := by
    simp [determineWinner, havg2, hmem]
  refine ⟨?_, ?_, ?_, ?_⟩
  · rw [key]
    by_cases h : |m1 - m2| / ((m1 + m2) / 2) < 1/20
    · rw [if_pos h]
      exact iff_of_true rfl h
    · rw [if_neg h]
      refine iff_of_false ?_ h
      by_cases h2 : m1 < m2
      · rw [if_pos h2]
        exact fun hc => Winner.noConfusion hc
      · rw [if_neg h2]
        exact fun hc => Winner.noConfusion hc
  · rw [key]
    intro hnt
    by_cases h : |m1 - m2| / ((m1 + m2) / 2) < 1/20
    · rw [if_pos h] at hnt
      exact absurd rfl hnt
    · rw [if_neg h] at hnt ⊢
      have hne : m1 ≠ m2 := by
        intro he
        apply h
        rw [he, sub_self, abs_zero, zero_div]
        norm_num
      by_cases h2 : m1 < m2
      · rw [if_pos h2]
        exact ⟨iff_of_true rfl h2,
               iff_of_false (fun hc => Winner.noConfusion hc) (not_lt.mpr (le_of_lt h2))⟩
      · rw [if_neg h2]
        exact ⟨iff_of_false (fun hc => Winner.noConfusion hc) h2,
               iff_of_true rfl (lt_of_le_of_ne (not_lt.mp h2) (Ne.symm hne))⟩
  · have h4 : |(100:ℚ) - 104| = 4 := by
      rw [abs_of_nonpos (by norm_num)]
      norm_num
    simp [determineWinner, h4]
    norm_num
  · have h10 : |(100:ℚ) - 110| = 10 := by
      rw [abs_of_nonpos (by norm_num)]
      norm_num
    simp [determineWinner, h10, hmem]
    norm_num

/-- Witness for C2 at the concrete tie-boundary means of the claim. -/
theorem determineWinner_examples_witness :
    determineWinner 100 104 "lcp" = Winner.tie ∧ determineWinner 100 110 "lcp" = Winner.app1 :=
  (determineWinner_tie_iff_lower_wins 100 104 "lcp" (by norm_num) (by decide)).2.2

/-! ## Membership characterization of compareApplications (shared helper) -/


theorem mem_compareApplications_iff {r1 r2 : List MetricsResult} {s : String}
    {c : ComparisonResult} :
    c ∈ compareApplications r1 r2 s ↔
      ∃ metric ∈ comparisonMetrics,
        extractMetricValues r1 metric ≠ [] ∧ extractMetricValues r2 metric ≠ [] ∧
        c = { scenario := s, metric := metric,
              app1 := calculateStatisticsCore (extractMetricValues r1 metric),
              app2 := calculateStatisticsCore (extractMetricValues r2 metric),
              improvement := calculateImprovement
                (calculateStatisticsCore (extractMetricValues r1 metric)).mean
                (calculateStatisticsCore (extractMetricValues r2 metric)).mean,
              significantDifference := isSignificantDifference
                (extractMetricValues r1 metric) (extractMetricValues r2 metric),
              winner := determineWinner
                (calculateStatisticsCore (extractMetricValues r1 metric)).mean
                (calculateStatisticsCore (extractMetricValues r2 metric)).mean metric } := by
  unfold compareApplications
  rw [List.mem_filterMap]
  constructor
  · rintro ⟨m, hm, heq⟩
    simp only at heq
    by_cases hemp : (extractMetricValues r1 m).length = 0 ∨ (extractMetricValues r2 m).length = 0
    · rw [if_pos hemp] at heq
      exact Option.noConfusion heq
    · rw [if_neg hemp] at heq
      push_neg at hemp
      refine ⟨m, hm, fun h => hemp.1 (by rw [h]; rfl),
              fun h => hemp.2 (by rw [h]; rfl), ?_⟩
      exact (Option.some.inj heq).symm
  · rintro ⟨m, hm, h1, h2, rfl⟩
    refine ⟨m, hm, ?_⟩
    simp only
    rw [if_neg]
    push_neg
    exact ⟨fun h => h1 (List.length_eq_zero.mp h), fun h => h2 (List.length_eq_zero.mp h)⟩


/-! ## C1 — identical populations -/

/-- C1 (amended): comparing a sample population against itself yields, for
every emitted metric comparison, `improvement = 0`; the winner is `tie`
whenever the two-decimal rounded mean for that metric is non-zero, and is
`app2` when that rounded mean is `0` (all of the metric values below
`0.005`), because the JS tie test `0 / 0 < 0.05` is false on `NaN`. -/
theorem compareApplications_identical (X : List MetricsResult) (s : String) :
    ∀ c ∈ compareApplications X X s,
      c.improvement = 0 ∧ (c.app1.mean ≠ 0 → c.winner = Winner.tie) ∧
      (c.app1.mean = 0 → c.winner = Winner.app2) := by
  intro c hc
  obtain ⟨m, hm, h1, h2, rfl⟩ := mem_compareApplications_iff.mp hc
  refine ⟨?_, ?_, ?_⟩
  · show calculateImprovement _ _ = 0
    unfold calculateImprovement
    by_cases hz : (calculateStatisticsCore (extractMetricValues X m)).mean = 0
    · rw [if_pos hz]
    · rw [if_neg hz, sub_self, zero_div, zero_mul, round2_zero]
  · intro hmz
    show determineWinner _ _ m = Winner.tie
    simp only at hmz
    have havg : ((calculateStatisticsCore (extractMetricValues X m)).mean +
        (calculateStatisticsCore (extractMetricValues X m)).mean) / 2 =
        (calculateStatisticsCore (extractMetricValues X m)).mean := by ring
    simp [determineWinner, sub_self, abs_zero, zero_div, havg, hmz]
  · intro hmz
    have hcont := comparisonMetrics_contains hm
    show determineWinner _ _ m = Winner.app2
    simp only at hmz
    norm_num [determineWinner, hmz, hcont]


/-- Counterexample to C1 as stated: a population consisting of one sample
whose metric values are all positive (`cls = 0.001`) compared against
itself emits nine comparisons, and the `cls` one (index 3) has winner
`app2`, not `tie`: its rounded mean is `0`, so the JS relative-difference
test evaluates `0 / 0 = NaN < 0.05` to false. -/
theorem compareApplications_identical_counterexample :
    ((compareApplications [sampleTiny] [sampleTiny] "login").map (fun c => c.winner)) =
      [Winner.tie, Winner.tie, Winner.tie, Winner.app2, Winner.tie, Winner.tie,
       Winner.tie, Winner.tie, Winner.tie] := by
  with_unfolding_all decide


/-- Witness for C1 (amended) at a concrete population with non-zero rounded
means. -/
theorem compareApplications_identical_witness :
    ((compareApplications [sampleA] [sampleA] "login").getD 0 trivialComparison).improvement
        = 0 ∧
    ((compareApplications [sampleA] [sampleA] "login").getD 0 trivialComparison).winner
        = Winner.tie := by
  have h := compareApplications_identical [sampleA] "login"
    ((compareApplications [sampleA] [sampleA] "login").getD 0 trivialComparison)
    (by with_unfolding_all decide)
  exact ⟨h.1, h.2.1 (by with_unfolding_all decide)⟩


/-! ## C4 — metric extraction, zero-filtering and metric skipping -/

/-- C4: every extracted metric value is strictly positive (a literal `0` is
discarded before any statistics are computed), and for each of the nine
tracked metrics a comparison for that metric is emitted exactly when both
sides have a non-empty filtered value list — its two summaries being the
statistics of exactly those filtered lists. -/
theorem compareApplications_extraction (r1 r2 : List MetricsResult) (s metric : String) :
    (∀ v ∈ extractMetricValues r1 metric, 0 < v) ∧
    (metric ∈ comparisonMetrics →
      (((∃ c ∈ compareApplications r1 r2 s, c.metric = metric) ↔
         extractMetricValues r1 metric ≠ [] ∧ extractMetricValues r2 metric ≠ []) ∧
       ∀ c ∈ compareApplications r1 r2 s, c.metric = metric →
         c.app1 = calculateStatisticsCore (extractMetricValues r1 metric) ∧
         c.app2 = calculateStatisticsCore (extractMetricValues r2 metric))) := by
  refine ⟨?_, ?_⟩
  · intro v hv
    unfold extractMetricValues at hv
    exact of_decide_eq_true (List.mem_filter.mp hv).2
  · intro hmem
    refine ⟨⟨?_, ?_⟩, ?_⟩
    · rintro ⟨c, hc, hcm⟩
      obtain ⟨m, hm', h1, h2, rfl⟩ := mem_compareApplications_iff.mp hc
      simp only at hcm
      subst hcm
      exact ⟨h1, h2⟩
    · rintro ⟨h1, h2⟩
      exact ⟨_, mem_compareApplications_iff.mpr ⟨metric, hmem, h1, h2, rfl⟩, rfl⟩
    · intro c hc hcm
      obtain ⟨m, hm', h1, h2, rfl⟩ := mem_compareApplications_iff.mp hc
      simp only at hcm
      subst hcm
      exact ⟨rfl, rfl⟩


/-- Witness for C4 at a concrete population in which every metric is
extractable. -/
theorem compareApplications_extraction_witness :
    ∃ c ∈ compareApplications [sampleA] [sampleA] "login", c.metric = "lcp" :=
  ((compareApplications_extraction [sampleA] [sampleA] "login" "lcp").2 (by decide)).1.mpr
    ⟨by with_unfolding_all decide, by with_unfolding_all decide⟩

/-! ## C7 — placeholder substitution, dotted paths -/

/-- C7 evaluated on the code: with test data holding the string `"Hello"`
under the dotted path `formData.basic.title`, `getTestDataValue` does
traverse the dotted path to the string, yet `processValue` leaves the
placeholder `"$\x7bformData.basic.title\x7d"` unchanged, because the
substitution regex `/\$\\x7b(\w+)\\x7d/g` only matches word characters and
`'.'` is not one — contradicting both the spec and the code comment of
`getTestDataValue` (`Handle nested keys like formData.basic.title`).  The
remaining conjuncts confirm the undisputed parts of the claim: an unknown
word-character key stays literal, `"$\x7busername\x7d"` resolves to a pool
member for either random draw, and a known word-character key is
substituted. -/
theorem dotted_placeholder_not_resolved :
    getTestDataValue ctxA.data "formData.basic.title" = "Hello" ∧
    processValue ctxA 0 0 "$\x7bformData.basic.title\x7d" = "$\x7bformData.basic.title\x7d" ∧
    processValue ctxA 0 0 "$\x7btotallyUnknownKey\x7d" = "$\x7btotallyUnknownKey\x7d" ∧
    processValue ctxA 0 0 "$\x7busername\x7d" = "alice@example.com" ∧
    processValue ctxA 1 0 "$\x7busername\x7d" = "bob@example.com" ∧
    processValue ctxA 0 0 "find $\x7bsearchTerm\x7d now" = "find laptops now" := by
  refine ⟨?_, ?_, ?_, ?_, ?_, ?_⟩ <;> with_unfolding_all decide

/-! ## C6 helper lemmas -/

theorem foldl_min_le_init : ∀ (xs : List ℚ) (a : ℚ), xs.foldl min a ≤ a
  | [], a => le_refl a
  | x :: xs, a => le_trans (foldl_min_le_init xs (min a x)) (min_le_left a x)

theorem foldl_min_le_mem : ∀ (xs : List ℚ) (a x : ℚ), x ∈ xs → xs.foldl min a ≤ x
  | y :: ys, a, x, h => by
    rcases List.mem_cons.mp h with h1 | h2
    · subst h1
      exact le_trans (foldl_min_le_init ys (min a x)) (min_le_right a x)
    · exact foldl_min_le_mem ys (min a y) x h2

theorem foldl_min_mem : ∀ (xs : List ℚ) (a : ℚ), xs.foldl min a = a ∨ xs.foldl min a ∈ xs
  | [], _ => Or.inl rfl
  | x :: xs, a => by
    rw [List.foldl_cons]
    rcases foldl_min_mem xs (min a x) with h | h
    · rcases min_choice a x with hm | hm
      · exact Or.inl (by rw [h, hm])
      · exact Or.inr (by rw [h, hm]; exact List.mem_cons_self x xs)
    · exact Or.inr (List.mem_cons_of_mem x h)

theorem listMin_cons (x : ℚ) (xs : List ℚ) : listMin (x :: xs) = xs.foldl min x := rfl

theorem listMax_cons (x : ℚ) (xs : List ℚ) : listMax (x :: xs) = xs.foldl max x := rfl

theorem listMin_le {l : List ℚ} {x : ℚ} (h : x ∈ l) : listMin l ≤ x := by
  cases l with
  | nil => cases h
  | cons y ys =>
    rw [listMin_cons]
    rcases List.mem_cons.mp h with h1 | h2
    · rw [h1]
      exact foldl_min_le_init ys y
    · exact foldl_min_le_mem ys y x h2

theorem listMin_mem {l : List ℚ} (h : l ≠ []) : listMin l ∈ l := by
  cases l with
  | nil => exact absurd rfl h
  | cons y ys =>
    rw [listMin_cons]
    rcases foldl_min_mem ys y with h1 | h1
    · rw [h1]
      exact List.mem_cons_self y ys
    · exact List.mem_cons_of_mem y h1

theorem foldl_max_init_le : ∀ (xs : List ℚ) (a : ℚ), a ≤ xs.foldl max a
  | [], a => le_refl a
  | x :: xs, a => le_trans (le_max_left a x) (foldl_max_init_le xs (max a x))

theorem foldl_max_mem_le : ∀ (xs : List ℚ) (a x : ℚ), x ∈ xs → x ≤ xs.foldl max a
  | y :: ys, a, x, h => by
    rcases List.mem_cons.mp h with h1 | h2
    · subst h1
      exact le_trans (le_max_right a x) (foldl_max_init_le ys (max a x))
    · exact foldl_max_mem_le ys (max a y) x h2

theorem foldl_max_mem : ∀ (xs : List ℚ) (a : ℚ), xs.foldl max a = a ∨ xs.foldl max a ∈ xs
  | [], _ => Or.inl rfl
  | x :: xs, a => by
    rw [List.foldl_cons]
    rcases foldl_max_mem xs (max a x) with h | h
    · rcases max_choice a x with hm | hm
      · exact Or.inl (by rw [h, hm])
      · exact Or.inr (by rw [h, hm]; exact List.mem_cons_self x xs)
    · exact Or.inr (List.mem_cons_of_mem x h)

theorem le_listMax {l : List ℚ} {x : ℚ} (h : x ∈ l) : x ≤ listMax l := by
  cases l with
  | nil => cases h
  | cons y ys =>
    rw [listMax_cons]
    rcases List.mem_cons.mp h with h1 | h2
    · rw [h1]
      exact foldl_max_init_le ys y
    · exact foldl_max_mem_le ys y x h2

theorem listMax_mem {l : List ℚ} (h : l ≠ []) : listMax l ∈ l := by
  cases l with
  | nil => exact absurd rfl h
  | cons y ys =>
    rw [listMax_cons]
    rcases foldl_max_mem ys y with h1 | h1
    · rw [h1]
      exact List.mem_cons_self y ys
    · exact List.mem_cons_of_mem y h1

theorem length_mul_le_sum : ∀ (l : List ℚ) (m : ℚ), (∀ x ∈ l, m ≤ x) →
    (l.length : ℚ) * m ≤ l.sum
  | [], m, _ => by simp
  | x :: xs, m, h => by
    have hx := h x (List.mem_cons_self x xs)
    have ih := length_mul_le_sum xs m (fun y hy => h y (List.mem_cons_of_mem x hy))
    simp only [List.sum_cons, List.length_cons]
    push_cast
    rw [add_mul, one_mul]
    linarith

theorem sum_le_length_mul : ∀ (l : List ℚ) (M : ℚ), (∀ x ∈ l, x ≤ M) →
    l.sum ≤ (l.length : ℚ) * M
  | [], M, _ => by simp
  | x :: xs, M, h => by
    have hx := h x (List.mem_cons_self x xs)
    have ih := sum_le_length_mul xs M (fun y hy => h y (List.mem_cons_of_mem x hy))
    simp only [List.sum_cons, List.length_cons]
    push_cast
    rw [add_mul, one_mul]
    linarith

theorem getD_zero_mem {l : List ℚ} (h : l ≠ []) : l.getD 0 0 ∈ l := by
  cases l with
  | nil => exact absurd rfl h
  | cons a t => exact List.mem_cons_self a t

theorem getD_last_mem : ∀ {l : List ℚ}, l ≠ [] → l.getD (l.length - 1) 0 ∈ l
  | [_], _ => List.mem_cons_self _ _
  | a :: b :: u, _ => by
    have : (a :: b :: u).getD ((a :: b :: u).length - 1) 0 =
        (b :: u).getD ((b :: u).length - 1) 0 := by
      simp [List.getD_cons_succ]
    rw [this]
    exact List.mem_cons_of_mem a (getD_last_mem (List.cons_ne_nil b u))

theorem sorted_head_le {s : List ℚ} (hs : s.Sorted (· ≤ ·)) {x : ℚ} (hx : x ∈ s) :
    s.getD 0 0 ≤ x := by
  cases s with
  | nil => cases hx
  | cons a t =>
    rcases List.mem_cons.mp hx with h1 | h2
    · subst h1
      exact le_refl x
    · exact (List.sorted_cons.mp hs).1 x h2

theorem sorted_le_last : ∀ {s : List ℚ}, s.Sorted (· ≤ ·) → ∀ {x : ℚ}, x ∈ s →
    x ≤ s.getD (s.length - 1) 0
  | [], _, x, hx => by cases hx
  | [a], _, x, hx => by
    have hxa : x = a := by simpa using hx
    subst hxa
    simp
  | a :: b :: u, hs, x, hx => by
    have hlast : (a :: b :: u).getD ((a :: b :: u).length - 1) 0 =
        (b :: u).getD ((b :: u).length - 1) 0 := by
      simp [List.getD_cons_succ]
    rw [hlast]
    have hs' := (List.sorted_cons.mp hs).2
    rcases List.mem_cons.mp hx with h1 | h2
    · subst h1
      have hlm : (b :: u).getD ((b :: u).length - 1) 0 ∈ b :: u :=
        getD_last_mem (List.cons_ne_nil b u)
      exact (List.sorted_cons.mp hs).1 _ hlm
    · exact sorted_le_last hs' h2

theorem calculatePercentile_zero (s : List ℚ) (h : s ≠ []) :
    calculatePercentile s 0 = s.getD 0 0 := by
  have hlen : 0 < s.length := List.length_pos.mpr h
  have hlen' : ¬ ((s.length : ℤ) ≤ 0) := by exact_mod_cast Nat.not_le.mpr hlen
  unfold calculatePercentile
  have h1 : (0 : ℚ) / 100 * ((s.length : ℚ) - 1) = 0 := by ring
  rw [h1]
  simp [hlen']

theorem calculatePercentile_hundred (s : List ℚ) (h : s ≠ []) :
    calculatePercentile s 100 = s.getD (s.length - 1) 0 := by
  have hlen : 0 < s.length := List.length_pos.mpr h
  have hlenz : (1 : ℤ) ≤ (s.length : ℤ) := by exact_mod_cast hlen
  unfold calculatePercentile
  have h1 : (100 : ℚ) / 100 * ((s.length : ℚ) - 1) = (((s.length : ℤ) - 1 : ℤ) : ℚ) := by
    push_cast
    ring
  rw [h1]
  have hc1 : ¬ ((s.length : ℤ) ≤ (s.length : ℤ) - 1) := by omega
  have hc2 : ¬ (((s.length : ℤ) - 1) < 0) := by omega
  have h2 : ((s.length : ℤ) - 1).toNat = s.length - 1 := by omega
  simp [hc1, hc2, h2, Int.ceil_intCast, Int.floor_intCast]

/-! ## C6 — percentile interpolation endpoints and mean bounds -/

/-- C6: on every non-empty value list, the percentile interpolation hits the
minimum at `p = 0` and the maximum at `p = 100` of the sorted values, the
summary median is the (rounded) 50th percentile, and the computed summary
satisfies `min ≤ mean ≤ max`. -/
theorem percentile_endpoints_and_mean_bounds (V : List ℚ) (h : V ≠ []) :
    calculatePercentile (List.insertionSort (· ≤ ·) V) 0 = listMin V ∧
    calculatePercentile (List.insertionSort (· ≤ ·) V) 100 = listMax V ∧
    (calculateStatisticsCore V).median =
      round2 (calculatePercentile (List.insertionSort (· ≤ ·) V) 50) ∧
    (calculateStatisticsCore V).min ≤ (calculateStatisticsCore V).mean ∧
    (calculateStatisticsCore V).mean ≤ (calculateStatisticsCore V).max := by
  have hperm : List.Perm (List.insertionSort (· ≤ ·) V) V := List.perm_insertionSort _ V
  have hsort : (List.insertionSort (· ≤ ·) V).Sorted (· ≤ ·) :=
    List.sorted_insertionSort _ V
  have hsne : List.insertionSort (· ≤ ·) V ≠ [] := by
    intro hn
    rw [hn] at hperm
    exact h (hperm.symm.eq_nil)
  have hn : (0 : ℚ) < V.length := by exact_mod_cast List.length_pos.mpr h
  refine ⟨?_, ?_, rfl, ?_, ?_⟩
  · rw [calculatePercentile_zero _ hsne]
    apply le_antisymm
    · exact sorted_head_le hsort (hperm.mem_iff.mpr (listMin_mem h))
    · exact listMin_le (hperm.mem_iff.mp (getD_zero_mem hsne))
  · rw [calculatePercentile_hundred _ hsne]
    apply le_antisymm
    · exact le_listMax (hperm.mem_iff.mp (getD_last_mem hsne))
    · exact sorted_le_last hsort (hperm.mem_iff.mpr (listMax_mem h))
  · show round2 (listMin V) ≤ round2 (V.sum / (V.length : ℚ))
    apply round2_mono
    rw [le_div_iff₀ hn]
    have hb := length_mul_le_sum V (listMin V) (fun x hx => listMin_le hx)
    linarith [hb, mul_comm (listMin V) ((V.length : ℚ))]
  · show round2 (V.sum / (V.length : ℚ)) ≤ round2 (listMax V)
    apply round2_mono
    rw [div_le_iff₀ hn]
    have hb := sum_le_length_mul V (listMax V) (fun x hx => le_listMax hx)
    linarith [hb, mul_comm (listMax V) ((V.length : ℚ))]

/-- Witness for C6 at the concrete list `[3, 1, 2]`. -/
theorem percentile_endpoints_witness :
    calculatePercentile (List.insertionSort (· ≤ ·) [3, 1, 2]) 0 = listMin [3, 1, 2] ∧
    calculatePercentile (List.insertionSort (· ≤ ·) [3, 1, 2]) 100 = listMax [3, 1, 2] ∧
    (calculateStatisticsCore [3, 1, 2]).median =
      round2 (calculatePercentile (List.insertionSort (· ≤ ·) [3, 1, 2]) 50) ∧
    (calculateStatisticsCore [3, 1, 2]).min ≤ (calculateStatisticsCore [3, 1, 2]).mean ∧
    (calculateStatisticsCore [3, 1, 2]).mean ≤ (calculateStatisticsCore [3, 1, 2]).max :=
  percentile_endpoints_and_mean_bounds [3, 1, 2] (by simp)

theorem two_sqrt_lt_abs_iff {a b : ℝ} (hb : 0 ≤ b) :
    2 * Real.sqrt b < |a| ↔ 4 * b < a ^ 2 := by
  rw [show (2:ℝ) * Real.sqrt b = Real.sqrt (4 * b) by
        rw [show (4:ℝ) * b = 2 ^ 2 * b by ring, Real.sqrt_mul (by norm_num) b,
            Real.sqrt_sq (by norm_num : (0:ℝ) ≤ 2)],
      ← Real.sqrt_sq_eq_abs]
  exact Real.sqrt_lt_sqrt_iff (by linarith)

/-! ## C3 — the pooled-variance significance test -/

/-- C3: `isSignificantDifference` returns `false` whenever either sample has
fewer than two observations; otherwise it returns `true` exactly when the
absolute difference of the two rounded means exceeds `2.0` times the
standard error `√(pooledVariance * (1/n1 + 1/n2))`, with
`pooledVariance = ((n1-1)*variance1 + (n2-1)*variance2) / (n1+n2-2)` built
from the statistics of the two samples. -/
theorem isSignificantDifference_spec (v1 v2 : List ℚ) :
    (v1.length < 2 ∨ v2.length < 2 → isSignificantDifference v1 v2 = false) ∧
    (2 ≤ v1.length → 2 ≤ v2.length →
      (isSignificantDifference v1 v2 = true ↔ tTestExceeds v1 v2)) := by
  constructor
  · intro h
    unfold isSignificantDifference
    rw [if_pos h]
  · intro h1 h2
    have hno : ¬ (v1.length < 2 ∨ v2.length < 2) := by omega
    have hn1q : (2:ℚ) ≤ (v1.length : ℚ) := by exact_mod_cast h1
    have hn2q : (2:ℚ) ≤ (v2.length : ℚ) := by exact_mod_cast h2
    have hv1 := variance_nonneg v1
    have hv2 := variance_nonneg v2
    unfold isSignificantDifference tTestExceeds
    rw [if_neg hno, decide_eq_true_iff]
    set a1 := (calculateStatisticsCore v1).mean with ha1
    set a2 := (calculateStatisticsCore v2).mean with ha2
    set w1 := (calculateStatisticsCore v1).variance with hw1
    set w2 := (calculateStatisticsCore v2).variance with hw2
    set bq : ℚ := (((v1.length : ℚ) - 1) * w1 + ((v2.length : ℚ) - 1) * w2) /
        ((v1.length : ℚ) + (v2.length : ℚ) - 2) *
        (1 / (v1.length : ℚ) + 1 / (v2.length : ℚ)) with hbdef
    have hbq : (0:ℚ) ≤ bq := by
      rw [hbdef]
      have h01 : (0:ℚ) < (v1.length : ℚ) := by linarith
      have h02 : (0:ℚ) < (v2.length : ℚ) := by linarith
      apply mul_nonneg
      · apply div_nonneg
        · exact add_nonneg (mul_nonneg (by linarith) hv1) (mul_nonneg (by linarith) hv2)
        · linarith
      · positivity
    have hcast : ((bq : ℚ) : ℝ) =
        ((((v1.length : ℝ) - 1) * (w1 : ℝ) + ((v2.length : ℝ) - 1) * (w2 : ℝ)) /
          ((v1.length : ℝ) + (v2.length : ℝ) - 2)) *
        (1 / (v1.length : ℝ) + 1 / (v2.length : ℝ)) := by
      rw [hbdef]
      push_cast
      ring
    have habs : |(a1 : ℝ) - (a2 : ℝ)| = |(((a1 - a2 : ℚ)) : ℝ)| := by
      push_cast
      rfl
    rw [← hcast, habs, two_sqrt_lt_abs_iff (by exact_mod_cast hbq)]
    constructor
    · intro hx
      have hx' : (4:ℚ) * bq < (a1 - a2) ^ 2 := by linarith
      exact_mod_cast hx'
    · intro hx
      have hx' : (4:ℚ) * bq < (a1 - a2) ^ 2 := by exact_mod_cast hx
      linarith

/-- Witness for C3: the short-sample branch at `[1]` vs `[10, 10]`, and the
main branch at `[1, 1]` vs `[10, 10]` (zero pooled variance, mean gap 9). -/
theorem isSignificantDifference_spec_witness :
    isSignificantDifference [1] [10, 10] = false ∧ tTestExceeds [1, 1] [10, 10] :=
  ⟨(isSignificantDifference_spec [1] [10, 10]).1 (Or.inl (by norm_num)),
   ((isSignificantDifference_spec [1, 1] [10, 10]).2 (by norm_num) (by norm_num)).mp
     (by with_unfolding_all decide)⟩

end PerfComp
